import Mathlib

/-!
# VEPS event-certification pipeline — verification development

A shallow embedding of the VEPS services (boundary adapter, veto service,
rdb updater, data fracture handler) together with proofs about the
embedded operations.

Modelling conventions:
* Go `map[string]int64` vector clocks are modelled as association lists
  `List (String × Int)` with Go's read semantics (`vcRead` returns `0`
  for an absent key) and first-occurrence lookup.  Go map iteration order
  is nondeterministic; the embedding iterates in list order, and theorems
  that depend on per-key facts are stated through lookups so they are
  order-robust.  Go maps never hold duplicate keys, so theorems that need
  it assume `Nodup` on the key list.
* Go `int64` counters are modelled as `Int` (no arithmetic in the
  embedded code overflows in the claims considered).
* JSON values decoded into Go `any` are modelled by `JsonVal`; JSON
  numbers decode to Go `float64`, modelled as `Rat` (every numeric value
  appearing in the claims is exactly representable).  Arrays, booleans
  and null are collapsed into `JsonVal.other` because every type
  assertion in the embedded code fails on them.
* `time.Time` is modelled as `Int` nanoseconds since the epoch where the
  code only compares or adds durations, and as a calendar record
  `GoDateTime` in the fracture handler, whose code only reads
  `Year/Month/Day/Hour`.
-/

namespace VEPS

/-! ## JSON values (Go `any` after `encoding/json` decoding) -/

/-- A decoded JSON value as seen by Go type assertions.  `.num` carries the
`float64` a JSON number decodes to; `.other` stands for arrays, booleans and
null, on which every type assertion in the embedded code fails. -/
inductive JsonVal where
  | str (s : String)
  | num (q : Rat)
  | obj (fields : List (String × JsonVal))
  | other
  deriving Inhabited

/-- First-match lookup in a decoded JSON object (Go map read). -/
def lookupJson (fields : List (String × JsonVal)) (k : String) : Option JsonVal :=
  match fields with
  | [] => none
  | (k', v) :: rest => if k' = k then some v else lookupJson rest k

/-- Go's `int64(v)` conversion on a `float64`: truncation toward zero. -/
def goTruncInt (q : Rat) : Int :=
  if 0 ≤ q then q.floor else q.ceil

/-! ## Vector clocks — `boundary-adapter/pkg/models/event.go` -/

/-- Go `type VectorClock map[string]int64`, as an association list. -/
def VectorClock := List (String × Int)

instance : Inhabited VectorClock := ⟨([] : List (String × Int))⟩

namespace VectorClock

/-- Lookup of the entry for a node (`v, exists := vc[n]`). -/
def lookup : VectorClock → String → Option Int
  | [], _ => none
  | (k, v) :: rest, n => if k = n then some v else lookup rest n

/-- Go map read `vc[n]`: the entry, or `0` when absent. -/
def read (vc : VectorClock) (n : String) : Int :=
  (vc.lookup n).getD 0

/-- Go map write `vc[n] = v`: replace the entry or add it. -/
def set : VectorClock → String → Int → VectorClock
  | [], n, v => [(n, v)]
  | (k, w) :: rest, n, v =>
      if k = n then (n, v) :: rest else (k, w) :: set rest n v

/-- The key list of a clock. -/
def keys (vc : VectorClock) : List String :=
  (vc : List (String × Int)).map Prod.fst

/-- Go `func (vc VectorClock) Increment(nodeID string)`: `vc[nodeID]++`. -/
def Increment (vc : VectorClock) (nodeID : String) : VectorClock :=
  vc.set nodeID (vc.read nodeID + 1)

/-- One iteration of the `Merge` loop body:
`if vc[nodeID] < timestamp { vc[nodeID] = timestamp }`. -/
def mergeEntry (vc : VectorClock) (p : String × Int) : VectorClock :=
  if vc.read p.1 < p.2 then vc.set p.1 p.2 else vc

/-- Go `func (vc VectorClock) Merge(other VectorClock)`: iterate over `other`,
raising each entry of `vc` that is below the incoming one. -/
def Merge (vc other : VectorClock) : VectorClock :=
  (other : List (String × Int)).foldl mergeEntry vc

/-- Go `func (vc VectorClock) HappensBefore(other VectorClock) bool`: every
entry of `vc` exists in `other` and is `≤` it, at least one is `<`, and the
loop ran at least once. -/
def HappensBefore (vc other : VectorClock) : Bool :=
  ((vc : List (String × Int)).all fun p =>
      match other.lookup p.1 with
      | none => false
      | some t2 => decide (p.2 ≤ t2)) &&
  ((vc : List (String × Int)).any fun p =>
      match other.lookup p.1 with
      | none => false
      | some t2 => decide (p.2 < t2)) &&
  !(vc : List (String × Int)).isEmpty

/-- The underlying entry list of a clock. -/
def toList (vc : VectorClock) : List (String × Int) := vc

/-! ### Association-list lemmas -/

theorem lookup_eq_of_mem {vc : VectorClock} {n : String} {t : Int}
    (hnd : vc.keys.Nodup) (hmem : (n, t) ∈ vc.toList) :
    vc.lookup n = some t := by
  induction vc with
  | nil => cases hmem
  | cons p rest ih =>
      obtain ⟨k, v⟩ := p
      simp only [keys, List.map_cons, List.nodup_cons] at hnd
      rcases List.mem_cons.mp hmem with h | h
      · cases h
        simp [lookup]
      · have hk : k ≠ n := by
          intro hkn
          exact hnd.1 (hkn ▸ (List.mem_map.mpr ⟨(n, t), h, rfl⟩))
        simp only [lookup, if_neg hk]
        exact ih hnd.2 h

theorem mem_of_lookup_eq {vc : VectorClock} {n : String} {t : Int}
    (h : vc.lookup n = some t) : (n, t) ∈ vc.toList := by
  induction vc with
  | nil => simp [lookup] at h
  | cons p rest ih =>
      obtain ⟨k, v⟩ := p
      by_cases hk : k = n
      · subst hk
        simp only [lookup, if_pos rfl] at h
        injection h with h'
        subst h'
        exact List.mem_cons_self _ _
      · simp only [lookup, if_neg hk] at h
        exact List.mem_cons_of_mem _ (ih h)

@[simp] theorem lookup_set_same (vc : VectorClock) (n : String) (v : Int) :
    (vc.set n v).lookup n = some v := by
  induction vc with
  | nil => simp [set, lookup]
  | cons p rest ih =>
      obtain ⟨k, w⟩ := p
      by_cases hk : k = n
      · simp [set, lookup, hk]
      · simp [set, lookup, hk, ih]

theorem lookup_set_other (vc : VectorClock) {k n : String} (hkn : k ≠ n)
    (v : Int) : (vc.set k v).lookup n = vc.lookup n := by
  induction vc with
  | nil => simp [set, lookup, hkn]
  | cons p rest ih =>
      obtain ⟨k', w⟩ := p
      by_cases hk' : k' = k
      · subst hk'
        simp [set, lookup, hkn]
      · by_cases hn : k' = n
        · subst hn
          simp [set, lookup, hk']
        · simp [set, lookup, hk', hn, ih]

theorem lookup_mergeEntry_other (vc : VectorClock) {p : String × Int}
    {n : String} (h : p.1 ≠ n) : (vc.mergeEntry p).lookup n = vc.lookup n := by
  unfold mergeEntry
  split
  · exact lookup_set_other vc h p.2
  · rfl

theorem lookup_foldl_mergeEntry_not_mem (rest : List (String × Int))
    (vc : VectorClock) {n : String} (h : n ∉ rest.map Prod.fst) :
    (rest.foldl mergeEntry vc).lookup n = vc.lookup n := by
  induction rest generalizing vc with
  | nil => rfl
  | cons p tail ih =>
      simp only [List.map_cons, List.mem_cons, not_or] at h
      rw [List.foldl_cons, ih (vc.mergeEntry p) h.2,
        lookup_mergeEntry_other vc (fun hp => h.1 hp.symm)]

theorem lookup_foldl_mergeEntry (other : List (String × Int))
    (vc : VectorClock) (hnd : (other.map Prod.fst).Nodup) (n : String) :
    (other.foldl mergeEntry vc).lookup n =
      match lookup other n with
      | none => vc.lookup n
      | some t => if vc.read n < t then some t else vc.lookup n := by
  induction other generalizing vc with
  | nil => rfl
  | cons p tail ih =>
      obtain ⟨k, t⟩ := p
      simp only [List.map_cons, List.nodup_cons] at hnd
      rw [List.foldl_cons]
      by_cases hk : k = n
      · subst hk
        have htail : (tail.foldl mergeEntry (vc.mergeEntry (k, t))).lookup k =
            (vc.mergeEntry (k, t)).lookup k :=
          lookup_foldl_mergeEntry_not_mem tail _ hnd.1
        have hhead : lookup ((k, t) :: tail) k = some t := by
          simp [lookup]
        rw [htail, hhead]
        by_cases hlt : vc.read k < t
        · simp [mergeEntry, hlt, lookup_set_same]
        · simp [mergeEntry, hlt]
      · have hhead : lookup ((k, t) :: tail) n = lookup tail n := by
          simp [lookup, hk]
        rw [hhead, ih (vc.mergeEntry (k, t)) hnd.2]
        have hme : (vc.mergeEntry (k, t)).lookup n = vc.lookup n :=
          lookup_mergeEntry_other vc hk
        have hrd : (vc.mergeEntry (k, t)).read n = vc.read n := by
          unfold read
          rw [hme]
        rw [hme, hrd]

/-- The per-key specification of `Merge`: for each node, the merged clock
holds the incoming entry when it beats the current Go-read, and is untouched
otherwise.  Needs distinct keys in `other` (true of any Go map). -/
theorem lookup_Merge (vc other : VectorClock) (hnd : other.keys.Nodup)
    (n : String) :
    (vc.Merge other).lookup n =
      match other.lookup n with
      | none => vc.lookup n
      | some t => if vc.read n < t then some t else vc.lookup n :=
  lookup_foldl_mergeEntry other vc hnd n

/-- Build a clock from an entry list (used to write concrete clocks). -/
def ofList (l : List (String × Int)) : VectorClock := l

/-- Destructured reading of a `true` result of `HappensBefore`. -/
theorem happensBefore_spec {a b : VectorClock} (h : a.HappensBefore b = true) :
    (∀ p ∈ a.toList, ∃ t2, b.lookup p.1 = some t2 ∧ p.2 ≤ t2) ∧
    (∃ p ∈ a.toList, ∃ t2, b.lookup p.1 = some t2 ∧ p.2 < t2) := by
  unfold HappensBefore at h
  rw [Bool.and_eq_true, Bool.and_eq_true] at h
  obtain ⟨⟨hall, hany⟩, _⟩ := h
  constructor
  · intro p hp
    have hcond := List.all_eq_true.mp hall p hp
    cases hlk : b.lookup p.1 with
    | none =>
        rw [hlk] at hcond
        have hfalse : false = true := hcond
        exact Bool.noConfusion hfalse
    | some t2 =>
        rw [hlk] at hcond
        have hle : decide (p.2 ≤ t2) = true := hcond
        exact ⟨t2, rfl, of_decide_eq_true hle⟩
  · obtain ⟨p, hp, hcond⟩ := List.any_eq_true.mp hany
    cases hlk : b.lookup p.1 with
    | none =>
        rw [hlk] at hcond
        have hfalse : false = true := hcond
        exact Bool.noConfusion hfalse
    | some t2 =>
        rw [hlk] at hcond
        have hlt : decide (p.2 < t2) = true := hcond
        exact ⟨p, hp, t2, hlk, of_decide_eq_true hlt⟩

end VectorClock

/-! ## Claim C5 — `VectorClock.Merge` -/

/-- C5: the claim states that after `vc.Merge(other)` every key present only
in `other` is copied in with `other`'s value for all `int64` values,
including zero and negative counters.  False: the merge loop guard
`vc[nodeID] < timestamp` compares against the zero Go-read of the absent
key, so a key carrying `-1` (or `0`) is never written. -/
theorem C5_counterexample :
    (VectorClock.Merge (VectorClock.ofList [])
        (VectorClock.ofList [("a", -1)])).lookup "a" = none ∧
    ¬ ((VectorClock.Merge (VectorClock.ofList [])
        (VectorClock.ofList [("a", -1)])).lookup "a" = some (-1)) := by
  refine ⟨rfl, ?_⟩
  intro h
  simp [VectorClock.Merge, VectorClock.ofList, VectorClock.mergeEntry,
    VectorClock.read, VectorClock.lookup] at h

/-- C5 (amended): after `vc.Merge(other)` (clocks with distinct keys), keys
present in both hold the max of the two values, keys present only in `vc`
are unchanged, and a key present only in `other` is copied exactly when its
value is positive; zero and negative new keys are dropped. -/
theorem C5_Merge_per_key (vc other : VectorClock) (hnd : other.keys.Nodup)
    (n : String) :
    (∀ a b, vc.lookup n = some a → other.lookup n = some b →
        (vc.Merge other).lookup n = some (max a b)) ∧
    (other.lookup n = none → (vc.Merge other).lookup n = vc.lookup n) ∧
    (∀ b, vc.lookup n = none → other.lookup n = some b →
        (vc.Merge other).lookup n = if 0 < b then some b else none) := by
  refine ⟨?_, ?_, ?_⟩
  · intro a b ha hb
    have hm := VectorClock.lookup_Merge vc other hnd n
    have hread : vc.read n = a := by
      unfold VectorClock.read
      rw [ha]
      rfl
    rw [hb, hread] at hm
    have hm2 : (vc.Merge other).lookup n =
        if a < b then some b else vc.lookup n := hm
    by_cases hab : a < b
    · rw [hm2, if_pos hab, max_eq_right hab.le]
    · rw [hm2, if_neg hab, ha, max_eq_left (le_of_not_lt hab)]
  · intro hb
    have hm := VectorClock.lookup_Merge vc other hnd n
    rw [hb] at hm
    exact hm
  · intro b ha hb
    have hm := VectorClock.lookup_Merge vc other hnd n
    have hread : vc.read n = 0 := by
      unfold VectorClock.read
      rw [ha]
      rfl
    rw [hb, hread] at hm
    have hm2 : (vc.Merge other).lookup n =
        if 0 < b then some b else vc.lookup n := hm
    by_cases h0 : 0 < b
    · rw [hm2, if_pos h0, if_pos h0]
    · rw [hm2, if_neg h0, if_neg h0, ha]

/-- Witness for C5: concrete clocks exercising all three conjuncts. -/
theorem C5_Merge_per_key_witness :
    (VectorClock.ofList [("b", 2), ("a", 5)]).keys.Nodup ∧
    (VectorClock.Merge (VectorClock.ofList [("a", 1)])
        (VectorClock.ofList [("b", 2), ("a", 5)])).lookup "a" =
      some (max 1 5) :=
  ⟨by decide,
   (C5_Merge_per_key (VectorClock.ofList [("a", 1)])
      (VectorClock.ofList [("b", 2), ("a", 5)]) (by decide) "a").1 1 5
      (by decide) (by decide)⟩

/-! ## Claim C9 — `VectorClock.HappensBefore` -/

/-- C9: `HappensBefore` is irreflexive and asymmetric on clocks with
distinct keys (every Go map), and the empty clock happens-before no
clock. -/
theorem C9_happensBefore_strict (a b : VectorClock)
    (ha : a.keys.Nodup) (_hb : b.keys.Nodup) :
    a.HappensBefore a = false ∧
    ¬ (a.HappensBefore b = true ∧ b.HappensBefore a = true) ∧
    (VectorClock.ofList []).HappensBefore b = false := by
  refine ⟨?_, ?_, rfl⟩
  · by_contra h
    rw [Bool.not_eq_false] at h
    obtain ⟨-, p, hp, t2, hlk, hlt⟩ := VectorClock.happensBefore_spec h
    have hself : a.lookup p.1 = some p.2 := VectorClock.lookup_eq_of_mem ha hp
    rw [hself] at hlk
    injection hlk with hlk'
    omega
  · rintro ⟨h1, h2⟩
    obtain ⟨-, p, hp, t2, hlk, hlt⟩ := VectorClock.happensBefore_spec h1
    have hmem : (p.1, t2) ∈ b.toList := VectorClock.mem_of_lookup_eq hlk
    obtain ⟨hall, -⟩ := VectorClock.happensBefore_spec h2
    obtain ⟨s, hs, hle⟩ := hall (p.1, t2) hmem
    have hself : a.lookup p.1 = some p.2 := VectorClock.lookup_eq_of_mem ha hp
    rw [hself] at hs
    injection hs with hs'
    omega

/-- Witness for C9: concrete clocks with distinct keys. -/
theorem C9_happensBefore_strict_witness :
    (VectorClock.ofList [("n", 1)]).keys.Nodup ∧
    (VectorClock.ofList [("m", 2), ("n", 0)]).keys.Nodup ∧
    ((VectorClock.ofList [("n", 1)]).HappensBefore
        (VectorClock.ofList [("n", 1)]) = false ∧
      ¬ ((VectorClock.ofList [("n", 1)]).HappensBefore
            (VectorClock.ofList [("m", 2), ("n", 0)]) = true ∧
          (VectorClock.ofList [("m", 2), ("n", 0)]).HappensBefore
            (VectorClock.ofList [("n", 1)]) = true) ∧
      (VectorClock.ofList []).HappensBefore
        (VectorClock.ofList [("m", 2), ("n", 0)]) = false) :=
  ⟨by decide, by decide,
   C9_happensBefore_strict (VectorClock.ofList [("n", 1)])
     (VectorClock.ofList [("m", 2), ("n", 0)]) (by decide) (by decide)⟩

/-! ## Event model — `boundary-adapter/pkg/models/event.go` -/

/-- Go `type Actor struct` (id, name, type, metadata). -/
structure Actor where
  id : String
  name : String
  type : String
  metadata : List (String × String)
  deriving Inhabited

/-- Go `type EventMetadata struct`.  Times are nanoseconds since the epoch;
`processedAt = none` models the Go zero `time.Time`. -/
structure EventMetadata where
  receivedAt : Int
  processedAt : Option Int
  boundaryNode : String
  correlationId : String
  retryCount : Int
  schemaVersion : String
  deriving Inhabited

/-- Go `type Event struct`: the canonical normalized event. -/
structure Event where
  id : String
  type : String
  source : String
  timestamp : Int
  actor : Actor
  evidence : List (String × JsonVal)
  vectorClock : VectorClock
  metadata : EventMetadata
  deriving Inhabited

/-- Go `type RawEvent struct`: the incoming record.  `data = none` models a nil
map, `timestamp = none` the Go zero `time.Time`. -/
structure RawEvent where
  data : Option (List (String × JsonVal))
  source : String
  timestamp : Option Int
  deriving Inhabited

/-! ## Normalizer — `boundary-adapter/internal/normalizer/normalizer.go` -/

namespace Normalizer

/-- The ambient inputs of one `Normalize` call that Go draws from the
process and the clock: the instance's node id, the `time.Now().UnixNano()`
read at vector-clock initialization, the `time.Now().UTC()` reads for the
timestamp fallback and `received_at`, and the generated UUIDs. -/
structure NormCtx where
  nodeID : String
  nowNs : Int
  nowUTC : Int
  freshEventID : String
  freshCorrelationID : String
  deriving Inhabited

/-- Embeds `extractActor`: nested `data.actor` object first, flat
`user_id`/`actor_id` and `user_name`/`actor_name` as fallback; empty id is
an error, empty name defaults to the id, empty type defaults to "user". -/
def extractActor (data : List (String × JsonVal)) : Except String Actor :=
  let base : Actor :=
    match lookupJson data "actor" with
    | some (JsonVal.obj m) =>
        { id := match lookupJson m "id" with
            | some (JsonVal.str s) => s
            | _ => ""
          name := match lookupJson m "name" with
            | some (JsonVal.str s) => s
            | _ => ""
          type := match lookupJson m "type" with
            | some (JsonVal.str s) => s
            | _ => ""
          metadata := [] }
    | _ =>
        { id := match lookupJson data "user_id" with
            | some (JsonVal.str s) => s
            | _ =>
              match lookupJson data "actor_id" with
              | some (JsonVal.str s) => s
              | _ => ""
          name := match lookupJson data "user_name" with
            | some (JsonVal.str s) => s
            | _ =>
              match lookupJson data "actor_name" with
              | some (JsonVal.str s) => s
              | _ => ""
          type := ""
          metadata := [] }
  if base.id = "" then Except.error "actor ID is required"
  else
    let withName := if base.name = "" then { base with name := base.id } else base
    let withType :=
      if withName.type = "" then { withName with type := "user" } else withName
    Except.ok withType

/-- Embeds `extractEvidence`: copy all of `data` except the reserved keys. -/
def extractEvidence (data : List (String × JsonVal)) : List (String × JsonVal) :=
  let excludeFields := ["type", "actor", "user_id", "user_name", "actor_id",
    "actor_name", "vector_clock", "correlation_id"]
  data.filter fun p => !(excludeFields.contains p.1)

/-- Embeds `extractCorrelationID`: caller-supplied non-empty string, else fresh. -/
def extractCorrelationID (ctx : NormCtx) (data : List (String × JsonVal)) :
    String :=
  match lookupJson data "correlation_id" with
  | some (JsonVal.str s) => if s ≠ "" then s else ctx.freshCorrelationID
  | _ => ctx.freshCorrelationID

/-- Embeds `parseVectorClock`: keep the numeric entries, coerced to `int64`. -/
def parseVectorClock (raw : List (String × JsonVal)) : VectorClock :=
  raw.filterMap fun p =>
    match p.2 with
    | JsonVal.num q => some (p.1, goTruncInt q)
    | _ => none

/-- Lines 59–69 of `Normalize`: initialize `{node_id: now_ns}`, merge the
caller clock when `data.vector_clock` is a JSON object, then increment this
node's entry. -/
def stampVectorClock (ctx : NormCtx) (data : List (String × JsonVal)) :
    VectorClock :=
  let init : VectorClock := VectorClock.ofList [(ctx.nodeID, ctx.nowNs)]
  let merged :=
    match lookupJson data "vector_clock" with
    | some (JsonVal.obj raw) => init.Merge (parseVectorClock raw)
    | _ => init
  merged.Increment ctx.nodeID

/-- Go `func (n *Normalizer) Normalize(raw models.RawEvent) (*models.Event, error)`. -/
def Normalize (ctx : NormCtx) (raw : RawEvent) : Except String Event :=
  if raw.source = "" then Except.error "source is required"
  else
    match raw.data with
    | none => Except.error "data is required"
    | some data =>
        match lookupJson data "type" with
        | some (JsonVal.str eventType) =>
            if eventType = "" then Except.error "event type is required in data"
            else
              match extractActor data with
              | Except.error e =>
                  Except.error ("failed to extract actor: " ++ e)
              | Except.ok actor =>
                  Except.ok
                    { id := ctx.freshEventID
                      type := eventType
                      source := raw.source
                      timestamp := raw.timestamp.getD ctx.nowUTC
                      actor := actor
                      evidence := extractEvidence data
                      vectorClock := stampVectorClock ctx data
                      metadata :=
                        { receivedAt := ctx.nowUTC
                          processedAt := none
                          boundaryNode := ctx.nodeID
                          correlationId := extractCorrelationID ctx data
                          retryCount := 0
                          schemaVersion := "1.0" } }
        | _ => Except.error "event type is required in data"

/-- Go `func (n *Normalizer) ValidateSchema(raw models.RawEvent) error`: note
that, unlike `Normalize`, it accepts an empty `type` string. -/
def ValidateSchema (raw : RawEvent) : Except String Unit :=
  if raw.source = "" then Except.error "source field is required"
  else
    match raw.data with
    | none => Except.error "data field is required"
    | some data =>
        match lookupJson data "type" with
        | some (JsonVal.str _) =>
            match extractActor data with
            | Except.error e => Except.error ("invalid actor data: " ++ e)
            | Except.ok _ => Except.ok ()
        | _ => Except.error "type field is required in data"

end Normalizer

/-- The vector-clock entry for node `n` of the event produced by a
successful `Normalize` call (`none` when normalization failed). -/
def normVCEntry (ctx : Normalizer.NormCtx) (raw : RawEvent) (n : String) :
    Option (Option Int) :=
  (Normalizer.Normalize ctx raw).toOption.map fun e => e.vectorClock.lookup n

theorem normVCEntry_eq {ctx : Normalizer.NormCtx} {raw : RawEvent}
    {data : List (String × JsonVal)} {e : Event}
    (hdata : raw.data = some data)
    (hok : Normalizer.Normalize ctx raw = Except.ok e) (n : String) :
    normVCEntry ctx raw n =
      some ((Normalizer.stampVectorClock ctx data).lookup n) := by
  unfold normVCEntry
  rw [hok]
  unfold Normalizer.Normalize at hok
  split at hok
  · exact absurd hok (by simp)
  · split at hok
    next heq =>
      rw [hdata] at heq
      exact absurd heq (by simp)
    next data' heq =>
      rw [hdata] at heq
      injection heq with heq'
      subst heq'
      split at hok
      next eventType heq2 =>
        split at hok
        · exact absurd hok (by simp)
        · split at hok
          next err heq3 => exact absurd hok (by simp)
          next actor heq3 =>
            injection hok with h'
            rw [← h']
            rfl
      next heq2 => exact absurd hok (by simp)

/-! ## Claim C4 — vector-clock stamping in `Normalize` -/

/-- Concrete normalization context for the C4 counterexample. -/
def c4ctx : Normalizer.NormCtx :=
  { nodeID := "n", nowNs := 1700000000000000000, nowUTC := 0,
    freshEventID := "e1", freshCorrelationID := "c1" }

/-- Concrete `data` map: a caller-supplied clock whose entry for a foreign
node exceeds the nanosecond stamp. -/
def c4data : List (String × JsonVal) :=
  [("type", JsonVal.str "payment_processed"),
   ("actor", JsonVal.obj [("id", JsonVal.str "u1")]),
   ("vector_clock", JsonVal.obj [("x", JsonVal.num 4611686018427387904)])]

/-- Concrete raw event for the C4 counterexample. -/
def c4raw : RawEvent :=
  { data := some c4data, source := "test", timestamp := none }

/-- C4: the claim states the stamped clock's entry for `node_id` strictly
exceeds every entry of the merged-in caller clock.  False: `Increment`
raises only the `node_id` entry, so a caller entry for a *different* node
larger than the nanosecond stamp survives unchallenged — here the event's
entry for node `n` is `now_ns + 1` while the merged-in entry for `x` is
`2^62`, which is larger. -/
theorem C4_counterexample :
    normVCEntry c4ctx c4raw "n" = some (some 1700000000000000001) ∧
    (Normalizer.parseVectorClock
        [("x", JsonVal.num 4611686018427387904)]).lookup "x" =
      some 4611686018427387904 ∧
    ¬ ((1700000000000000001 : Int) > 4611686018427387904) :=
  ⟨rfl, rfl, by decide⟩

/-- C4 (amended): for every accepted raw input supplying a
`data.vector_clock` object, the produced event's entry for this node's
`node_id` strictly exceeds the nanosecond stamp and the merged-in clock's
entry *for `node_id`* (entries for other nodes need not be dominated). -/
theorem C4_stamped_clock_dominates_node_entry
    (ctx : Normalizer.NormCtx) (raw : RawEvent)
    (data m : List (String × JsonVal))
    (hdata : raw.data = some data)
    (hok : ∃ e, Normalizer.Normalize ctx raw = Except.ok e)
    (hvc : lookupJson data "vector_clock" = some (JsonVal.obj m))
    (hnd : (Normalizer.parseVectorClock m).keys.Nodup) :
    ∃ s, normVCEntry ctx raw ctx.nodeID = some (some s) ∧
      ctx.nowNs < s ∧
      ∀ t, (Normalizer.parseVectorClock m).lookup ctx.nodeID = some t →
        t < s := by
  obtain ⟨e, hok⟩ := hok
  have hvce0 := normVCEntry_eq hdata hok ctx.nodeID
  unfold Normalizer.stampVectorClock at hvce0
  rw [hvc] at hvce0
  unfold VectorClock.Increment at hvce0
  rw [VectorClock.lookup_set_same] at hvce0
  have hvce : normVCEntry ctx raw ctx.nodeID =
      some (some ((VectorClock.Merge
        (VectorClock.ofList [(ctx.nodeID, ctx.nowNs)])
        (Normalizer.parseVectorClock m)).read ctx.nodeID + 1)) := hvce0
  have hinit : (VectorClock.ofList [(ctx.nodeID, ctx.nowNs)]).lookup
      ctx.nodeID = some ctx.nowNs := by
    simp [VectorClock.ofList, VectorClock.lookup]
  have hm := VectorClock.lookup_Merge
    (VectorClock.ofList [(ctx.nodeID, ctx.nowNs)])
    (Normalizer.parseVectorClock m) hnd ctx.nodeID
  cases hW : (Normalizer.parseVectorClock m).lookup ctx.nodeID with
  | none =>
      rw [hW] at hm
      have hread : (VectorClock.Merge (VectorClock.ofList
          [(ctx.nodeID, ctx.nowNs)]) (Normalizer.parseVectorClock m)).read
          ctx.nodeID = ctx.nowNs := by
        unfold VectorClock.read
        rw [hm, hinit]
        rfl
      refine ⟨ctx.nowNs + 1, ?_, by omega, ?_⟩
      · rw [hvce, hread]
      · intro t ht
        exact absurd ht (by simp)
  | some t0 =>
      rw [hW] at hm
      have hm2 : (VectorClock.Merge (VectorClock.ofList
          [(ctx.nodeID, ctx.nowNs)]) (Normalizer.parseVectorClock m)).lookup
          ctx.nodeID =
          if (VectorClock.ofList [(ctx.nodeID, ctx.nowNs)]).read ctx.nodeID
              < t0 then some t0
          else (VectorClock.ofList [(ctx.nodeID, ctx.nowNs)]).lookup
            ctx.nodeID := hm
      have hreadinit : (VectorClock.ofList
          [(ctx.nodeID, ctx.nowNs)]).read ctx.nodeID = ctx.nowNs := by
        unfold VectorClock.read
        rw [hinit]
        rfl
      rw [hreadinit, hinit] at hm2
      have hread : (VectorClock.Merge (VectorClock.ofList
          [(ctx.nodeID, ctx.nowNs)]) (Normalizer.parseVectorClock m)).read
          ctx.nodeID = max ctx.nowNs t0 := by
        unfold VectorClock.read
        rw [hm2]
        by_cases hlt : ctx.nowNs < t0
        · rw [if_pos hlt]
          simp [max_eq_right hlt.le]
        · rw [if_neg hlt]
          simp [max_eq_left (le_of_not_lt hlt)]
      refine ⟨max ctx.nowNs t0 + 1, ?_, by omega, ?_⟩
      · rw [hvce, hread]
      · intro t ht
        injection ht with ht'
        have h1 : t0 ≤ max ctx.nowNs t0 := le_max_right _ _
        omega

/-- Concrete context for the C4 witness. -/
def c4wctx : Normalizer.NormCtx :=
  { nodeID := "n", nowNs := 10, nowUTC := 0,
    freshEventID := "e", freshCorrelationID := "c" }

/-- Concrete data for the C4 witness: the caller clock carries an entry for
this node and one for a foreign node. -/
def c4wdata : List (String × JsonVal) :=
  [("type", JsonVal.str "t"),
   ("actor", JsonVal.obj [("id", JsonVal.str "u")]),
   ("vector_clock",
     JsonVal.obj [("n", JsonVal.num 5), ("x", JsonVal.num 3)])]

/-- Concrete raw event for the C4 witness. -/
def c4wraw : RawEvent :=
  { data := some c4wdata, source := "s", timestamp := none }

/-- Witness for the amended C4 at a concrete accepted input. -/
theorem C4_stamped_clock_dominates_node_entry_witness :
    c4wraw.data = some c4wdata ∧
    lookupJson c4wdata "vector_clock" =
      some (JsonVal.obj [("n", JsonVal.num 5), ("x", JsonVal.num 3)]) ∧
    (∃ s, normVCEntry c4wctx c4wraw "n" = some (some s) ∧
      (10 : Int) < s ∧
      ∀ t, (Normalizer.parseVectorClock
          [("n", JsonVal.num 5), ("x", JsonVal.num 3)]).lookup "n" =
        some t → t < s) :=
  ⟨rfl, rfl,
   C4_stamped_clock_dominates_node_entry c4wctx c4wraw c4wdata
     [("n", JsonVal.num 5), ("x", JsonVal.num 3)] rfl ⟨_, rfl⟩ rfl
     (by decide)⟩

/-! ## Batch ingestion — `Handler.IngestBatch` (boundary adapter) -/

namespace Handler

open Normalizer

/-- Whether one element of a batch fails the handler's per-element stage:
`ValidateSchema` first, then `Normalize`. -/
def elemFails (c : NormCtx) (raw : RawEvent) : Bool :=
  match Normalizer.ValidateSchema raw with
  | Except.error _ => true
  | Except.ok _ =>
      match Normalizer.Normalize c raw with
      | Except.error _ => true
      | Except.ok _ => false

/-- The handler's normalize loop: validate and normalize each element in
order, returning at the first failure the offending index and message
(mirroring `writeError` with `"event %d …"`), otherwise all events. -/
def normalizeLoop (gen : Nat → NormCtx) :
    List RawEvent → Nat → Except (Nat × String) (List Event)
  | [], _ => Except.ok []
  | raw :: rest, i =>
      match Normalizer.ValidateSchema raw with
      | Except.error msg =>
          Except.error (i, "event " ++ toString i ++
            " schema validation failed: " ++ msg)
      | Except.ok _ =>
          match Normalizer.Normalize (gen i) raw with
          | Except.error msg =>
              Except.error (i, "event " ++ toString i ++
                " normalization failed: " ++ msg)
          | Except.ok e =>
              match normalizeLoop gen rest (i + 1) with
              | Except.error err => Except.error err
              | Except.ok es => Except.ok (e :: es)

/-- The observable outcome of `IngestBatch`: HTTP status, the index named
in an input error (if any), and the events handed to `RouteBatch`. -/
structure BatchOutcome where
  status : Nat
  errorIndex : Option Nat
  routed : List Event
  deriving Inhabited

/-- Go `func (h *Handler) IngestBatch`: reject empty batches and batches over
100 with 400; reject at the first element failing schema validation or
normalization with 400 before any routing; otherwise route everything and
answer 207 when some event failed integrity, 200 otherwise.  `gen i` gives
the ambient inputs of element `i`'s `Normalize` call and `integrityOk i`
the integrity outcome `RouteBatch` reports for event `i`. -/
def IngestBatch (gen : Nat → NormCtx) (integrityOk : Nat → Bool)
    (raws : List RawEvent) : BatchOutcome :=
  if raws.length = 0 then { status := 400, errorIndex := none, routed := [] }
  else if 100 < raws.length then
    { status := 400, errorIndex := none, routed := [] }
  else
    match normalizeLoop gen raws 0 with
    | Except.error err =>
        { status := 400, errorIndex := some err.1, routed := [] }
    | Except.ok events =>
        let failCount :=
          ((List.range events.length).filter fun i => !(integrityOk i)).length
        { status := if 0 < failCount then 207 else 200
          errorIndex := none
          routed := events }

/-- Whether the batch fails at index `i` (out-of-range indices do not). -/
def failsAt (gen : Nat → NormCtx) (raws : List RawEvent) (i : Nat) : Bool :=
  match raws.get? i with
  | some raw => elemFails (gen i) raw
  | none => false

theorem normalizeLoop_error_at (gen : Nat → NormCtx) :
    ∀ (l : List RawEvent) (start j : Nat) (hjl : j < l.length),
    elemFails (gen (start + j)) (l.get ⟨j, hjl⟩) = true →
    (∀ k (hk : k < j),
      elemFails (gen (start + k)) (l.get ⟨k, Nat.lt_trans hk hjl⟩) = false) →
    ∃ msg, normalizeLoop gen l start = Except.error (start + j, msg) := by
  intro l
  induction l with
  | nil =>
      intro start j hjl
      exact absurd hjl (by simp)
  | cons raw rest ih =>
      intro start j hjl hfail hmin
      cases j with
      | zero =>
          simp only [Nat.add_zero] at hfail
          have hfail' : elemFails (gen start) raw = true := hfail
          unfold elemFails at hfail'
          unfold normalizeLoop
          cases hvs : Normalizer.ValidateSchema raw with
          | error msg =>
              exact ⟨"event " ++ toString start ++
                " schema validation failed: " ++ msg, by simp⟩
          | ok u =>
              rw [hvs] at hfail'
              cases hnm : Normalizer.Normalize (gen start) raw with
              | error msg =>
                  exact ⟨"event " ++ toString start ++
                    " normalization failed: " ++ msg, by simp⟩
              | ok e =>
                  rw [hnm] at hfail'
                  exact absurd hfail' (by simp)
      | succ k =>
          have hhead : elemFails (gen start) raw = false := by
            have := hmin 0 (Nat.succ_pos k)
            simpa using this
          unfold elemFails at hhead
          cases hvs : Normalizer.ValidateSchema raw with
          | error msg =>
              rw [hvs] at hhead
              exact absurd hhead (by simp)
          | ok u =>
              rw [hvs] at hhead
              cases hnm : Normalizer.Normalize (gen start) raw with
              | error msg =>
                  rw [hnm] at hhead
                  exact absurd hhead (by simp)
              | ok e =>
                  have hjl' : k < rest.length := Nat.lt_of_succ_lt_succ hjl
                  have hfail' : elemFails (gen (start + 1 + k))
                      (rest.get ⟨k, hjl'⟩) = true := by
                    have : start + 1 + k = start + (k + 1) := by omega
                    rw [this]
                    exact hfail
                  have hmin' : ∀ k' (hk' : k' < k),
                      elemFails (gen (start + 1 + k'))
                        (rest.get ⟨k', Nat.lt_trans hk' hjl'⟩) = false := by
                    intro k' hk'
                    have h1 : start + 1 + k' = start + (k' + 1) := by omega
                    have := hmin (k' + 1) (Nat.succ_lt_succ hk')
                    rw [h1]
                    exact this
                  obtain ⟨msg, hrec⟩ := ih (start + 1) k hjl' hfail' hmin'
                  refine ⟨msg, ?_⟩
                  unfold normalizeLoop
                  rw [hvs, hnm, hrec]
                  have : start + 1 + k = start + (k + 1) := by omega
                  rw [this]

/-- C10: if any element of a non-empty batch of at most 100 raw events
fails schema validation or normalization, `IngestBatch` answers 400 naming
the first offending index and hands no event at all to `RouteBatch` (so
nothing reaches the Integrity or Context Path). -/
theorem C10_batch_all_or_nothing (gen : Nat → NormCtx)
    (integrityOk : Nat → Bool) (raws : List RawEvent)
    (h1 : 0 < raws.length) (h2 : raws.length ≤ 100)
    (hfail : ∃ i, failsAt gen raws i = true) :
    (IngestBatch gen integrityOk raws).status = 400 ∧
    (IngestBatch gen integrityOk raws).routed = [] ∧
    ∃ j, (IngestBatch gen integrityOk raws).errorIndex = some j ∧
      failsAt gen raws j = true ∧
      ∀ k, k < j → failsAt gen raws k = false := by
  classical
  let j := Nat.find hfail
  have hj : failsAt gen raws j = true := Nat.find_spec hfail
  have hjmin : ∀ k, k < j → failsAt gen raws k = false := by
    intro k hk
    have := Nat.find_min hfail hk
    simpa using this
  have hjl : j < raws.length := by
    by_contra hge
    unfold failsAt at hj
    rw [List.get?_eq_none.mpr (Nat.le_of_not_lt hge)] at hj
    exact absurd hj (by simp)
  have hjget : raws.get? j = some (raws.get ⟨j, hjl⟩) := List.get?_eq_get hjl
  have hjfail : elemFails (gen j) (raws.get ⟨j, hjl⟩) = true := by
    unfold failsAt at hj
    rw [hjget] at hj
    exact hj
  have hminget : ∀ k (hk : k < j),
      elemFails (gen k) (raws.get ⟨k, Nat.lt_trans hk hjl⟩) = false := by
    intro k hk
    have := hjmin k hk
    unfold failsAt at this
    rw [List.get?_eq_get (Nat.lt_trans hk hjl)] at this
    exact this
  have hloop : ∃ msg, normalizeLoop gen raws 0 = Except.error (j, msg) := by
    have := normalizeLoop_error_at gen raws 0 j hjl
      (by simpa using hjfail) (by intro k hk; simpa using hminget k hk)
    simpa using this
  obtain ⟨msg, hloop⟩ := hloop
  have hne : ¬ raws.length = 0 := by omega
  have hle : ¬ 100 < raws.length := by omega
  unfold IngestBatch
  rw [if_neg hne, if_neg hle, hloop]
  exact ⟨rfl, rfl, j, rfl, hj, hjmin⟩

end Handler

/-- Normalization context for the C10 witness. -/
def c10ctx : Normalizer.NormCtx :=
  { nodeID := "n", nowNs := 1, nowUTC := 0,
    freshEventID := "e", freshCorrelationID := "c" }

/-- A raw event that passes schema validation and normalization. -/
def c10good : RawEvent :=
  { source := "s", timestamp := none,
    data := some [("type", JsonVal.str "t"), ("user_id", JsonVal.str "u")] }

/-- A raw event with no extractable actor: schema validation fails. -/
def c10bad : RawEvent :=
  { source := "s", timestamp := none,
    data := some [("type", JsonVal.str "t")] }

/-- Witness for C10: a two-element batch whose second element fails. -/
theorem C10_batch_all_or_nothing_witness :
    0 < ([c10good, c10bad] : List RawEvent).length ∧
    ([c10good, c10bad] : List RawEvent).length ≤ 100 ∧
    (∃ i, Handler.failsAt (fun _ => c10ctx) [c10good, c10bad] i = true) ∧
    ((Handler.IngestBatch (fun _ => c10ctx) (fun _ => true)
        [c10good, c10bad]).status = 400 ∧
      (Handler.IngestBatch (fun _ => c10ctx) (fun _ => true)
        [c10good, c10bad]).routed = [] ∧
      ∃ j, (Handler.IngestBatch (fun _ => c10ctx) (fun _ => true)
          [c10good, c10bad]).errorIndex = some j ∧
        Handler.failsAt (fun _ => c10ctx) [c10good, c10bad] j = true ∧
        ∀ k, k < j →
          Handler.failsAt (fun _ => c10ctx) [c10good, c10bad] k = false) :=
  ⟨by decide, by decide, ⟨1, by decide⟩,
   Handler.C10_batch_all_or_nothing (fun _ => c10ctx) (fun _ => true)
     [c10good, c10bad] (by decide) (by decide) ⟨1, by decide⟩⟩

/-! ## Boundary router — `boundary-adapter/internal/router/router.go`

`Route` launches two goroutines (Integrity Path, Context Path), blocks on
the integrity result or the router deadline, and — on the integrity-success
branch only — executes `wg.Wait()` (line 120) before building the success
return.  The embedding records the observable control flow of one call as a
trace of steps; independent steps whose relative order is immaterial to the
claims are laid down in a fixed representative order. -/

namespace Router

/-- Observable control-flow steps of one `Route` call. -/
inductive RouterStep where
  | integrityStart
  | contextStart
  | integrityDone
  | contextDone
  | returned
  deriving DecidableEq, Inhabited

/-- Terminal outcome as seen by the caller. -/
inductive RouteReturn where
  | success
  | integrityFailure
  | timeout
  deriving DecidableEq, Inhabited

/-- The schedule-dependent inputs of one `Route` call: the two handlers'
results, whether the integrity result arrives before the router deadline in
the `select`, and whether the context goroutine happens to finish before an
early (failure/timeout) return. -/
structure RouteScenario where
  integrityErr : Option String
  contextErr : Option String
  integrityWithinTimeout : Bool
  contextFinishedEarly : Bool
  deriving DecidableEq, Inhabited

/-- What one `Route` call returns and when, relative to the two paths.
`contextSuccess = none` models the early-return paths on which the
`RouteResult` context fields are written concurrently and are not reliably
observable. -/
structure RouteModelResult where
  ret : RouteReturn
  integritySuccess : Bool
  contextSuccess : Option Bool
  trace : List RouterStep
  deriving DecidableEq, Inhabited

/-- Go `func (r *Router) Route`: both goroutines start; the `select` blocks on
the integrity channel under the route deadline; integrity failure (line
107–110) and deadline expiry (line 112–115) return early; integrity success
falls through `wg.Wait()` (line 120), which completes the Context Path
before the success return (line 122–129). -/
def Route (s : RouteScenario) : RouteModelResult :=
  let pre := [RouterStep.integrityStart, RouterStep.contextStart]
  if s.integrityWithinTimeout then
    match s.integrityErr with
    | some _ =>
        { ret := RouteReturn.integrityFailure
          integritySuccess := false
          contextSuccess := none
          trace := pre ++ [RouterStep.integrityDone] ++
            (if s.contextFinishedEarly then [RouterStep.contextDone] else [])
            ++ [RouterStep.returned] }
    | none =>
        { ret := RouteReturn.success
          integritySuccess := true
          contextSuccess := some s.contextErr.isNone
          trace := pre ++ [RouterStep.integrityDone, RouterStep.contextDone,
            RouterStep.returned] }
  else
    { ret := RouteReturn.timeout
      integritySuccess := false
      contextSuccess := none
      trace := pre ++
        (if s.contextFinishedEarly then [RouterStep.contextDone] else []) ++
        [RouterStep.returned] }

/-- Whether the Context Path completed before the call returned. -/
def contextAwaitedBeforeReturn (tr : List RouterStep) : Bool :=
  (tr.takeWhile fun a => a ≠ RouterStep.returned).contains
    RouterStep.contextDone

end Router

/-! ## Claim C1 — success returns and the Context Path -/

/-- Scenario for the C1 counterexample: integrity succeeds within the
deadline while the context write is still in flight at `select` time. -/
def c1scenario : Router.RouteScenario :=
  { integrityErr := none, contextErr := none,
    integrityWithinTimeout := true, contextFinishedEarly := false }

/-- C1: the claim states a success response is returned *without awaiting
the Context Path* (it may still be in flight at return).  False: on the
integrity-success branch `Route` executes `wg.Wait()` before returning, so
the Context Path has always completed when the caller gets the response —
here a concrete success call whose trace completes the context write before
`returned`. -/
theorem C1_counterexample :
    (Router.Route c1scenario).ret = Router.RouteReturn.success ∧
    Router.contextAwaitedBeforeReturn (Router.Route c1scenario).trace =
      true := by
  exact ⟨rfl, rfl⟩

/-- C1 (amended): when the Integrity Path completes with success inside the
router deadline, `Route` returns success with the integrity/context
booleans filled in, but only after awaiting the Context Path's completion
(`wg.Wait`); the context outcome still has no effect on the success
return. -/
theorem C1_success_awaits_context (s : Router.RouteScenario)
    (h1 : s.integrityWithinTimeout = true) (h2 : s.integrityErr = none) :
    (Router.Route s).ret = Router.RouteReturn.success ∧
    (Router.Route s).integritySuccess = true ∧
    (Router.Route s).contextSuccess = some s.contextErr.isNone ∧
    Router.contextAwaitedBeforeReturn (Router.Route s).trace = true := by
  unfold Router.Route
  rw [h1, h2]
  exact ⟨rfl, rfl, rfl, rfl⟩

/-- Scenario for the C1 witness: a degraded context path
(`contextErr = some`) on a successful integrity check. -/
def c1wscenario : Router.RouteScenario :=
  { integrityErr := none, contextErr := some "rdb 500",
    integrityWithinTimeout := true, contextFinishedEarly := false }

/-- Witness for the amended C1. -/
theorem C1_success_awaits_context_witness :
    c1wscenario.integrityWithinTimeout = true ∧
    ((Router.Route c1wscenario).ret = Router.RouteReturn.success ∧
      (Router.Route c1wscenario).integritySuccess = true ∧
      (Router.Route c1wscenario).contextSuccess =
        some c1wscenario.contextErr.isNone ∧
      Router.contextAwaitedBeforeReturn (Router.Route c1wscenario).trace =
        true) :=
  ⟨rfl, C1_success_awaits_context c1wscenario rfl rfl⟩

/-! ## Claim C7 — router timeout configuration

`loadConfig` (boundary-adapter `main.go`) reads `ROUTER_TIMEOUT_MS`,
defaulting to 50 ms when the variable is unset or unparsable, and
`router.New` substitutes 10 s when handed a zero timeout.  The environment
value is modelled post-parse: `some n` stands for the variable set to the
decimal string of `n` (so `time.ParseDuration(s+"ms")` yields `n` ms), and
`none` for unset or unparsable. -/

namespace Config

/-- Embeds `loadConfig` lines 100–106: `timeout := 50 * time.Millisecond`,
overwritten by a parsed `ROUTER_TIMEOUT_MS`.  Result in nanoseconds. -/
def loadConfigRouterTimeout : Option Nat → Int
  | none => 50 * 1000000
  | some n => (n : Int) * 1000000

/-- Embeds `router.New` lines 32–42: `if timeout == 0 { timeout = 10 *
time.Second }`. -/
def routerNewTimeout (timeout : Int) : Int :=
  if timeout = 0 then 10 * 1000000000 else timeout

/-- The router-level deadline actually imposed on the Integrity Path. -/
def effectiveRouterTimeout (envMs : Option Nat) : Int :=
  routerNewTimeout (loadConfigRouterTimeout envMs)

end Config

/-- C7: the claim states that with the configured value absent *or zero*
the router deadline defaults to 50 ms.  False for zero:
`ROUTER_TIMEOUT_MS=0` parses to a zero duration, which `router.New`
replaces with 10 seconds, not 50 ms. -/
theorem C7_counterexample :
    Config.effectiveRouterTimeout (some 0) = 10000000000 ∧
    ¬ (Config.effectiveRouterTimeout (some 0) = 50000000) := by
  exact ⟨rfl, by decide⟩

/-- C7 (amended): an absent (or unparsable) `ROUTER_TIMEOUT_MS` yields the
50 ms default; a configured zero yields `router.New`'s 10 s fallback; any
positive configured value is used as-is in milliseconds. -/
theorem C7_router_timeout_default (envMs : Option Nat) :
    Config.effectiveRouterTimeout none = 50000000 ∧
    Config.effectiveRouterTimeout (some 0) = 10000000000 ∧
    (∀ n, envMs = some n → 0 < n →
      Config.effectiveRouterTimeout envMs = (n : Int) * 1000000) := by
  refine ⟨rfl, rfl, ?_⟩
  intro n hn hpos
  subst hn
  show Config.routerNewTimeout ((n : Int) * 1000000) = (n : Int) * 1000000
  have hne : ¬ ((n : Int) * 1000000 = 0) := by
    have h0 : (0 : Int) < (n : Int) := by exact_mod_cast hpos
    omega
  unfold Config.routerNewTimeout
  rw [if_neg hne]

/-- Witness for the amended C7 at `ROUTER_TIMEOUT_MS=75`. -/
theorem C7_router_timeout_default_witness :
    (0 : Nat) < 75 ∧
    Config.effectiveRouterTimeout (some 75) = (75 : Int) * 1000000 :=
  ⟨by decide,
   (C7_router_timeout_default (some 75)).2.2 75 rfl (by decide)⟩

/-! ## Context store — `rdb-updater/internal/store/store.go` -/

namespace Store

/-- One row of the `events` table (`InitSchema`): all columns of the
`INSERT` plus the `created_at` column the database fills by default. -/
structure EventRow where
  id : String
  type : String
  source : String
  timestamp : Int
  actorId : String
  actorName : String
  actorType : String
  evidence : List (String × JsonVal)
  vectorClock : VectorClock
  boundaryNode : String
  correlationId : String
  receivedAt : Int
  processedAt : Int
  schemaVersion : String
  createdAt : Int
  deriving Inhabited

/-- The row the `INSERT` clause of `UpsertEvent` supplies: `processed_at`
defaults to the current time when the event carries none (lines 150–153),
`created_at` to the database's `NOW()`. -/
def insertRowOfEvent (now dbNow : Int) (e : Event) : EventRow :=
  { id := e.id
    type := e.type
    source := e.source
    timestamp := e.timestamp
    actorId := e.actor.id
    actorName := e.actor.name
    actorType := e.actor.type
    evidence := e.evidence
    vectorClock := e.vectorClock
    boundaryNode := e.metadata.boundaryNode
    correlationId := e.metadata.correlationId
    receivedAt := e.metadata.receivedAt
    processedAt := match e.metadata.processedAt with
      | none => now
      | some t => t
    schemaVersion := e.metadata.schemaVersion
    createdAt := dbNow }

/-- The `ON CONFLICT (id) DO UPDATE SET` clause: exactly the listed columns
take the excluded (incoming) values; `received_at`, `schema_version` and
`created_at` are not in the SET list and keep the stored row's values. -/
def updateRow (old incoming : EventRow) : EventRow :=
  { id := old.id
    type := incoming.type
    source := incoming.source
    timestamp := incoming.timestamp
    actorId := incoming.actorId
    actorName := incoming.actorName
    actorType := incoming.actorType
    evidence := incoming.evidence
    vectorClock := incoming.vectorClock
    boundaryNode := incoming.boundaryNode
    correlationId := incoming.correlationId
    receivedAt := old.receivedAt
    processedAt := incoming.processedAt
    schemaVersion := old.schemaVersion
    createdAt := old.createdAt }

/-- Go `func (s *Store) UpsertEvent`: insert-or-update keyed on `id`. -/
def UpsertEvent (now dbNow : Int) (e : Event) (rows : List EventRow) :
    List EventRow :=
  let incoming := insertRowOfEvent now dbNow e
  if rows.any fun r => r.id = e.id then
    rows.map fun r => if r.id = e.id then updateRow r incoming else r
  else rows ++ [incoming]

/-- The SQL predicate of `CheckVectorClockCausality`:
`boundary_node = $1 AND (vector_clock->>$1)::bigint <= $2` (a row whose
clock has no entry for the node yields SQL NULL and never matches). -/
def rowSatisfies (n : String) (ts : Int) (r : EventRow) : Bool :=
  decide (r.boundaryNode = n) &&
    (match r.vectorClock.lookup n with
      | some t => decide (t ≤ ts)
      | none => false)

/-- The row predicate in the spec's words (`CausalityQuery`): "at least one
persisted event whose vector-clock entry for `node` is ≤ `ts`" — with no
condition on the row's `boundary_node`.  Stated only to compare with
`rowSatisfies`. -/
def specRowSatisfies (n : String) (ts : Int) (r : EventRow) : Bool :=
  match r.vectorClock.lookup n with
  | some t => decide (t ≤ ts)
  | none => false

/-- Go `func (s *Store) CheckVectorClockCausality`: for each clock entry count
the matching rows; nodes with zero matches are collected as missing. -/
def CheckVectorClockCausality (rows : List EventRow) (vc : VectorClock) :
    Bool × List String :=
  let missing := vc.toList.foldl
    (fun acc p =>
      if rows.countP (rowSatisfies p.1 p.2) = 0 then acc ++ [p.1] else acc)
    []
  (missing.isEmpty, missing)

theorem foldl_missing_eq_filter (P : String × Int → Prop) [DecidablePred P] :
    ∀ (l : List (String × Int)) (acc : List String),
    l.foldl (fun acc p => if P p then acc ++ [p.1] else acc) acc =
      acc ++ (l.filter fun p => decide (P p)).map Prod.fst := by
  intro l
  induction l with
  | nil => intro acc; simp
  | cons p tail ih =>
      intro acc
      rw [List.foldl_cons]
      by_cases hp : P p
      · rw [if_pos hp, ih (acc ++ [p.1])]
        simp [hp]
      · rw [if_neg hp, ih acc]
        simp [hp]

end Store

/-! ## Claim C3 — causality query semantics -/

/-- A persisted row for the C3 counterexample: its clock carries an entry
for node `B` but it was written by boundary node `A`. -/
def c3row : Store.EventRow :=
  { id := "r1", type := "t", source := "s", timestamp := 0,
    actorId := "u", actorName := "U", actorType := "user",
    evidence := [], vectorClock := VectorClock.ofList [("B", 3)],
    boundaryNode := "A", correlationId := "c", receivedAt := 0,
    processedAt := 0, schemaVersion := "1.0", createdAt := 0 }

/-- C3: the claim states the query is satisfied exactly when every clock
entry is backed by a persisted event whose vector-clock entry for the node
is ≤ the entry.  False: the SQL adds `boundary_node = node`, so a row whose
clock covers node `B` but whose `boundary_node` is `A` does not count —
here the spec's predicate holds for every entry of `{B: 5}` yet the query
reports `satisfied = false` with `missing = [B]`. -/
theorem C3_counterexample :
    ((VectorClock.ofList [("B", 5)]).toList.all fun p =>
      ([c3row] : List Store.EventRow).any
        (Store.specRowSatisfies p.1 p.2)) = true ∧
    (Store.CheckVectorClockCausality [c3row]
      (VectorClock.ofList [("B", 5)])).1 = false ∧
    (Store.CheckVectorClockCausality [c3row]
      (VectorClock.ofList [("B", 5)])).2 = ["B"] := by
  exact ⟨rfl, rfl, rfl⟩

/-- C3 (amended): the query returns `satisfied = true` exactly when every
`(node, ts)` entry of the clock has at least one persisted row with
`boundary_node = node` *and* a vector-clock entry for `node` that is
`≤ ts`; `missing_nodes` lists exactly the entries with no such row (in
clock order); and appending rows to the store never flips a satisfied
result to unsatisfied. -/
theorem C3_causality_query (rows : List Store.EventRow) (vc : VectorClock)
    (extra : List Store.EventRow) :
    ((Store.CheckVectorClockCausality rows vc).1 = true ↔
      ∀ p ∈ vc.toList, 0 < rows.countP (Store.rowSatisfies p.1 p.2)) ∧
    ((Store.CheckVectorClockCausality rows vc).2 =
      (vc.toList.filter fun p =>
        decide (rows.countP (Store.rowSatisfies p.1 p.2) = 0)).map
        Prod.fst) ∧
    ((Store.CheckVectorClockCausality rows vc).1 = true →
      (Store.CheckVectorClockCausality (rows ++ extra) vc).1 = true) := by
  have hmiss : ∀ (rs : List Store.EventRow),
      (Store.CheckVectorClockCausality rs vc).2 =
        (vc.toList.filter fun p =>
          decide (rs.countP (Store.rowSatisfies p.1 p.2) = 0)).map
          Prod.fst := by
    intro rs
    have h := Store.foldl_missing_eq_filter
      (fun p => rs.countP (Store.rowSatisfies p.1 p.2) = 0) vc.toList []
    rw [List.nil_append] at h
    simpa [Store.CheckVectorClockCausality] using h
  have hempty_iff : ∀ (l : List String), l.isEmpty = true ↔ l = [] := by
    intro l
    cases l <;> simp
  have hsat : ∀ (rs : List Store.EventRow),
      ((Store.CheckVectorClockCausality rs vc).1 = true ↔
        ∀ p ∈ vc.toList, 0 < rs.countP (Store.rowSatisfies p.1 p.2)) := by
    intro rs
    have h1 : (Store.CheckVectorClockCausality rs vc).1 =
        (Store.CheckVectorClockCausality rs vc).2.isEmpty := rfl
    rw [h1, hempty_iff, hmiss rs, List.map_eq_nil_iff, List.filter_eq_nil_iff]
    constructor
    · intro hall p hp
      have := hall p hp
      simp only [decide_eq_true_eq] at this
      omega
    · intro hall p hp
      have := hall p hp
      simp only [decide_eq_true_eq]
      omega
  refine ⟨hsat rows, hmiss rows, ?_⟩
  intro htrue
  rw [hsat (rows ++ extra)]
  rw [hsat rows] at htrue
  intro p hp
  have := htrue p hp
  rw [List.countP_append]
  omega

/-! ## Claim C6 — the upsert update path -/

/-- Incoming event for the C6 counterexample: same id as the stored row but
fresh `received_at` and `schema_version`. -/
def c6event : Event :=
  { id := "id1"
    type := "t2"
    source := "s2"
    timestamp := 5
    actor := { id := "u2", name := "U2", type := "user", metadata := [] }
    evidence := []
    vectorClock := VectorClock.ofList []
    metadata :=
      { receivedAt := 200
        processedAt := none
        boundaryNode := "b2"
        correlationId := "c2"
        retryCount := 0
        schemaVersion := "2.0" } }

/-- Stored row for the C6 counterexample. -/
def c6row : Store.EventRow :=
  { id := "id1", type := "t1", source := "s1", timestamp := 1,
    actorId := "u1", actorName := "U1", actorType := "user",
    evidence := [], vectorClock := VectorClock.ofList [],
    boundaryNode := "b1", correlationId := "c1", receivedAt := 100,
    processedAt := 50, schemaVersion := "1.0", createdAt := 7 }

/-- C6: the claim states the update path replaces *every* column with the
incoming event's values.  False: the `DO UPDATE SET` list omits
`received_at` and `schema_version` (and `created_at`), so upserting over an
existing id keeps the stored row's values for those columns — here the
stored `received_at`/`schema_version` remain `100`/`"1.0"` although the
incoming event carries `200`/`"2.0"`. -/
theorem C6_counterexample :
    (Store.UpsertEvent 999 998 c6event [c6row]).map
      (fun r => (r.receivedAt, r.schemaVersion)) = [(100, "1.0")] ∧
    c6event.metadata.receivedAt = 200 ∧
    c6event.metadata.schemaVersion = "2.0" ∧
    ¬ ((Store.UpsertEvent 999 998 c6event [c6row]).map
        (fun r => (r.receivedAt, r.schemaVersion)) =
      [(c6event.metadata.receivedAt, c6event.metadata.schemaVersion)]) := by
  refine ⟨rfl, rfl, rfl, ?_⟩
  intro h
  simp [Store.UpsertEvent, Store.updateRow, Store.insertRowOfEvent,
    c6event, c6row] at h

/-- C6 (amended): when the incoming event's id already exists, the update
path replaces the columns in the SET list — type, source, timestamp, the
actor columns, evidence, vector_clock, boundary_node, correlation_id and
processed_at (the latter defaulting to the current UTC time when the
incoming event carries none) — while `received_at`, `schema_version` and
`created_at` keep the stored row's values. -/
theorem C6_upsert_update_path (now dbNow : Int) (e : Event)
    (rows : List Store.EventRow)
    (hexists : (rows.any fun r => r.id = e.id) = true) :
    Store.UpsertEvent now dbNow e rows =
      (rows.map fun r => if r.id = e.id then
        Store.updateRow r (Store.insertRowOfEvent now dbNow e) else r) ∧
    ∀ r : Store.EventRow,
      (Store.updateRow r (Store.insertRowOfEvent now dbNow e)).id = r.id ∧
      (Store.updateRow r (Store.insertRowOfEvent now dbNow e)).type =
        e.type ∧
      (Store.updateRow r (Store.insertRowOfEvent now dbNow e)).source =
        e.source ∧
      (Store.updateRow r (Store.insertRowOfEvent now dbNow e)).timestamp =
        e.timestamp ∧
      (Store.updateRow r (Store.insertRowOfEvent now dbNow e)).actorId =
        e.actor.id ∧
      (Store.updateRow r (Store.insertRowOfEvent now dbNow e)).actorName =
        e.actor.name ∧
      (Store.updateRow r (Store.insertRowOfEvent now dbNow e)).actorType =
        e.actor.type ∧
      (Store.updateRow r (Store.insertRowOfEvent now dbNow e)).evidence =
        e.evidence ∧
      (Store.updateRow r (Store.insertRowOfEvent now dbNow e)).vectorClock =
        e.vectorClock ∧
      (Store.updateRow r
          (Store.insertRowOfEvent now dbNow e)).boundaryNode =
        e.metadata.boundaryNode ∧
      (Store.updateRow r
          (Store.insertRowOfEvent now dbNow e)).correlationId =
        e.metadata.correlationId ∧
      (Store.updateRow r (Store.insertRowOfEvent now dbNow e)).processedAt =
        (match e.metadata.processedAt with
          | none => now
          | some t => t) ∧
      (Store.updateRow r (Store.insertRowOfEvent now dbNow e)).receivedAt =
        r.receivedAt ∧
      (Store.updateRow r
          (Store.insertRowOfEvent now dbNow e)).schemaVersion =
        r.schemaVersion ∧
      (Store.updateRow r (Store.insertRowOfEvent now dbNow e)).createdAt =
        r.createdAt := by
  constructor
  · unfold Store.UpsertEvent
    rw [if_pos hexists]
  · intro r
    exact ⟨rfl, rfl, rfl, rfl, rfl, rfl, rfl, rfl, rfl, rfl, rfl, rfl, rfl,
      rfl, rfl⟩

/-- Witness for the amended C6 at the concrete event and stored row. -/
theorem C6_upsert_update_path_witness :
    (([c6row] : List Store.EventRow).any fun r => r.id = c6event.id)
      = true ∧
    Store.UpsertEvent 999 998 c6event [c6row] =
      (([c6row] : List Store.EventRow).map fun r =>
        if r.id = c6event.id then
          Store.updateRow r (Store.insertRowOfEvent 999 998 c6event)
        else r) :=
  ⟨by decide,
   (C6_upsert_update_path 999 998 c6event [c6row] (by decide)).1⟩

/-! ## Validator — `veto-service/internal/validator/validator.go`

The veto service's `rdbClient.CheckCausality` is an HTTP call to the rdb
updater's `/causality` handler, which evaluates
`Store.CheckVectorClockCausality` on the persisted rows; the embedding
composes the two directly.  The veto service's `Event` mirrors the
boundary adapter's model, so the shared `Event` type is reused. -/

namespace Validator

/-- Go `type CheckResult struct { Passed bool; Reason string }`. -/
structure CheckResult where
  passed : Bool
  reason : String
  deriving DecidableEq, Inhabited

/-- Go `type ValidationError struct { Check, Reason string }`. -/
structure ValidationError where
  check : String
  reason : String
  deriving DecidableEq, Inhabited

/-- Go's `%v` rendering of a string slice, as used for missing nodes. -/
def goFmtStrings (l : List String) : String :=
  "[" ++ String.intercalate " " l ++ "]"

/-- Rendering of Go's `%.2f` for the amounts in reason strings: exact for
amounts with at most two decimal digits (no claim depends on the rounding
of longer fractions). -/
def fmtAmount2 (q : Rat) : String :=
  let c : Int := round (q * 100)
  let n := c.natAbs
  (if c < 0 then "-" else "") ++ toString (n / 100) ++ "." ++
    (if n % 100 < 10 then "0" else "") ++ toString (n % 100)

/-- Embeds `checkCausality`: clocks with at most one entry have no dependencies;
otherwise query the store. -/
def checkCausality (rows : List Store.EventRow) (e : Event) : CheckResult :=
  if e.vectorClock.toList.length ≤ 1 then { passed := true, reason := "" }
  else
    let res := Store.CheckVectorClockCausality rows e.vectorClock
    if res.1 then { passed := true, reason := "" }
    else
      { passed := false
        reason := "causal dependencies not satisfied, missing nodes: " ++
          goFmtStrings res.2 }

/-- Embeds `checkActorExists`: lenient mode, passes unconditionally. -/
def checkActorExists (_e : Event) : CheckResult :=
  { passed := true, reason := "" }

/-- Embeds `validatePayment`: `amount` must be a number, positive, ≤ 1,000,000. -/
def validatePayment (e : Event) : CheckResult :=
  match lookupJson e.evidence "amount" with
  | some (JsonVal.num amount) =>
      if amount ≤ 0 then
        { passed := false
          reason := "payment amount must be positive, got: " ++
            fmtAmount2 amount }
      else if 1000000 < amount then
        { passed := false
          reason := "payment amount exceeds limit: " ++ fmtAmount2 amount }
      else { passed := true, reason := "" }
  | _ => { passed := false, reason := "payment amount is missing or invalid" }

/-- Embeds `validateLogin`: accepts. -/
def validateLogin (_e : Event) : CheckResult :=
  { passed := true, reason := "" }

/-- Embeds `validateWithdrawal`: `amount` must be a number, positive, ≤ 10,000. -/
def validateWithdrawal (e : Event) : CheckResult :=
  match lookupJson e.evidence "amount" with
  | some (JsonVal.num amount) =>
      if amount ≤ 0 then
        { passed := false, reason := "withdrawal amount must be positive" }
      else if 10000 < amount then
        { passed := false
          reason := "withdrawal amount exceeds daily limit: " ++
            fmtAmount2 amount }
      else { passed := true, reason := "" }
  | _ =>
      { passed := false
        reason := "withdrawal amount is missing or invalid" }

/-- Embeds `checkBusinessRules`: dispatch on the event type; unknown types pass. -/
def checkBusinessRules (e : Event) : CheckResult :=
  if e.type = "payment_processed" then validatePayment e
  else if e.type = "user_login" then validateLogin e
  else if e.type = "withdrawal" then validateWithdrawal e
  else { passed := true, reason := "" }

/-- Embeds `checkTemporal`: reject events older than one hour or more than five
minutes in the future (times in nanoseconds). -/
def checkTemporal (now : Int) (e : Event) : CheckResult :=
  if e.timestamp < now - 3600 * 1000000000 then
    { passed := false
      reason := "event timestamp is too old (more than 1 hour in the past)" }
  else if now + 5 * 60 * 1000000000 < e.timestamp then
    { passed := false, reason := "event timestamp is in the future" }
  else { passed := true, reason := "" }

/-- Go `func (v *Validator) Validate`: run the four checks in order, appending
an entry for each failed check, and pass iff no entry was appended. -/
def Validate (rows : List Store.EventRow) (now : Int) (e : Event) :
    Bool × List ValidationError :=
  let errors0 : List ValidationError := []
  let c1 := checkCausality rows e
  let errors1 :=
    if c1.passed then errors0
    else errors0 ++ [{ check := "causality", reason := c1.reason }]
  let c2 := checkActorExists e
  let errors2 :=
    if c2.passed then errors1
    else errors1 ++ [{ check := "actor_existence", reason := c2.reason }]
  let c3 := checkBusinessRules e
  let errors3 :=
    if c3.passed then errors2
    else errors2 ++ [{ check := "business_rules", reason := c3.reason }]
  let c4 := checkTemporal now e
  let errors4 :=
    if c4.passed then errors3
    else errors3 ++ [{ check := "temporal", reason := c4.reason }]
  (errors4.isEmpty, errors4)

end Validator

/-! ## Claim C8 — validator completeness -/

/-- C8: for every event and store state the validator's failure list holds
one entry per failed check — the later checks run and report even when an
earlier one fails — and the event passes exactly when the list is empty. -/
theorem C8_validator_completeness (rows : List Store.EventRow) (now : Int)
    (e : Event) :
    (Validator.Validate rows now e).2 =
      (if (Validator.checkCausality rows e).passed then [] else
        [{ check := "causality",
           reason := (Validator.checkCausality rows e).reason }]) ++
      (if (Validator.checkActorExists e).passed then [] else
        [{ check := "actor_existence",
           reason := (Validator.checkActorExists e).reason }]) ++
      (if (Validator.checkBusinessRules e).passed then [] else
        [{ check := "business_rules",
           reason := (Validator.checkBusinessRules e).reason }]) ++
      (if (Validator.checkTemporal now e).passed then [] else
        [{ check := "temporal",
           reason := (Validator.checkTemporal now e).reason }]) ∧
    ((Validator.Validate rows now e).1 = true ↔
      (Validator.Validate rows now e).2 = []) := by
  unfold Validator.Validate
  by_cases h1 : (Validator.checkCausality rows e).passed <;>
    by_cases h2 : (Validator.checkActorExists e).passed <;>
      by_cases h3 : (Validator.checkBusinessRules e).passed <;>
        by_cases h4 : (Validator.checkTemporal now e).passed <;>
          simp [h1, h2, h3, h4]

/-! ## Data fracture handler — `storage/cloudstorage.go`, `models/fracture.go`

The fracture handler carries its own mirror of the event model.  Its code
reads only `Year()/Month()/Day()/Hour()` of timestamps, so `time.Time` is
modelled as a calendar record. -/

namespace Fracture

/-- The calendar fields of a `time.Time` that the handler reads. -/
structure GoDateTime where
  year : Nat
  month : Nat
  day : Nat
  hour : Nat
  deriving DecidableEq, Inhabited

/-- The handler's `Actor` mirror. -/
structure FHActor where
  id : String
  name : String
  type : String
  deriving Inhabited

/-- The handler's `EventMetadata` mirror. -/
structure FHEventMetadata where
  receivedAt : GoDateTime
  processedAt : GoDateTime
  boundaryNode : String
  correlationId : String
  retryCount : Int
  schemaVersion : String
  deriving Inhabited

/-- The handler's `Event` mirror: the rejected, normalized event. -/
structure FHEvent where
  id : String
  type : String
  source : String
  timestamp : GoDateTime
  actor : FHActor
  evidence : List (String × JsonVal)
  vectorClock : VectorClock
  metadata : FHEventMetadata
  deriving Inhabited

/-- Go `type RejectionDetails struct`. -/
structure RejectionDetails where
  failedChecks : List String
  reasons : List String
  vetoNode : String
  duration : String
  deriving Inhabited

/-- Go `type FractureContext struct`. -/
structure FractureContext where
  vepsNodeId : String
  correlationId : String
  vectorClock : VectorClock
  originalSource : String
  receivedAt : GoDateTime
  metadata : List (String × JsonVal)
  deriving Inhabited

/-- Go `type FracturedEvent struct`: the immutable audit record. -/
structure FracturedEvent where
  fractureId : String
  timestamp : GoDateTime
  event : FHEvent
  rejection : RejectionDetails
  context : FractureContext
  deriving Inhabited

/-- Go `type FractureRequest struct`: the incoming `/fracture` body. -/
structure FractureRequest where
  event : FHEvent
  failedChecks : List String
  reasons : List String
  vetoNode : String
  duration : String
  correlationId : String
  metadata : List (String × JsonVal)
  deriving Inhabited

/-- Go `func (fr *FractureRequest) ToFracturedEvent`: fresh fracture id and
`Timestamp: time.Now().UTC()` — the veto time, not the event's own
timestamp. -/
def ToFracturedEvent (nowUTC : GoDateTime) (freshFractureId : String)
    (fr : FractureRequest) : FracturedEvent :=
  { fractureId := freshFractureId
    timestamp := nowUTC
    event := fr.event
    rejection :=
      { failedChecks := fr.failedChecks
        reasons := fr.reasons
        vetoNode := fr.vetoNode
        duration := fr.duration }
    context :=
      { vepsNodeId := fr.event.metadata.boundaryNode
        correlationId := fr.correlationId
        vectorClock := fr.event.vectorClock
        originalSource := fr.event.source
        receivedAt := fr.event.metadata.receivedAt
        metadata := fr.metadata } }

/-- Go's `%02d`. -/
def pad2 (n : Nat) : String :=
  if n < 10 then "0" ++ toString n else toString n

/-- Go's `%04d`. -/
def pad4 (n : Nat) : String :=
  if n < 10 then "000" ++ toString n
  else if n < 100 then "00" ++ toString n
  else if n < 1000 then "0" ++ toString n
  else toString n

/-- Embeds `generateObjectPath`: `YYYY/MM/DD/fractures-HH.jsonl` from the given
timestamp.  `WriteFracture` calls it on `fracture.Timestamp`. -/
def generateObjectPath (t : GoDateTime) : String :=
  pad4 t.year ++ "/" ++ pad2 t.month ++ "/" ++ pad2 t.day ++
    "/fractures-" ++ pad2 t.hour ++ ".jsonl"

/-- The object path `WriteFracture` chooses for a fracture: the path of its
own `Timestamp` field. -/
def writeFracturePath (fracture : FracturedEvent) : String :=
  generateObjectPath fracture.timestamp

end Fracture

/-! ## Claim C2 — fracture archive bucketing -/

/-- Rejected event for the C2 counterexample: its own timestamp sits in the
14:00 hour bucket. -/
def c2event : Fracture.FHEvent :=
  { id := "ev1"
    type := "payment_processed"
    source := "test"
    timestamp := { year := 2025, month := 12, day := 10, hour := 14 }
    actor := { id := "u1", name := "U1", type := "user" }
    evidence := []
    vectorClock := VectorClock.ofList []
    metadata :=
      { receivedAt := { year := 2025, month := 12, day := 10, hour := 14 }
        processedAt := { year := 0, month := 1, day := 1, hour := 0 }
        boundaryNode := "b1"
        correlationId := "c1"
        retryCount := 0
        schemaVersion := "1.0" } }

/-- Fracture request for the C2 counterexample. -/
def c2req : Fracture.FractureRequest :=
  { event := c2event
    failedChecks := ["temporal"]
    reasons := ["event timestamp is too old (more than 1 hour in the past)"]
    vetoNode := "veto1"
    duration := "1ms"
    correlationId := "c1"
    metadata := [] }

/-- The veto wall-clock time for the C2 counterexample: two hours after the
event's timestamp. -/
def c2now : Fracture.GoDateTime :=
  { year := 2025, month := 12, day := 10, hour := 16 }

/-- C2: the claim states the archive path matches the hour bucket of the
*rejected event's* timestamp.  False: `ToFracturedEvent` stamps the
fracture with `time.Now().UTC()` (the veto time) and `WriteFracture`
derives the path from that stamp — a stale event rejected two hours after
its own timestamp lands in the veto hour's bucket, not its own. -/
theorem C2_counterexample :
    Fracture.writeFracturePath
      (Fracture.ToFracturedEvent c2now "f1" c2req) =
      "2025/12/10/fractures-16.jsonl" ∧
    Fracture.generateObjectPath c2req.event.timestamp =
      "2025/12/10/fractures-14.jsonl" ∧
    ¬ (Fracture.writeFracturePath
        (Fracture.ToFracturedEvent c2now "f1" c2req) =
      Fracture.generateObjectPath c2req.event.timestamp) := by
  refine ⟨rfl, rfl, ?_⟩
  intro h
  rw [show Fracture.writeFracturePath
      (Fracture.ToFracturedEvent c2now "f1" c2req) =
      "2025/12/10/fractures-16.jsonl" from rfl,
    show Fracture.generateObjectPath c2req.event.timestamp =
      "2025/12/10/fractures-14.jsonl" from rfl] at h
  exact absurd h (by decide)

/-- C2 (amended): the object path `WriteFracture` chooses for the fracture
produced from a request is the hour bucket of the fracture's own
timestamp — the UTC veto time stamped by `ToFracturedEvent` — so it
coincides with the rejected event's timestamp bucket exactly when the two
timestamps render the same path. -/
theorem C2_fracture_bucketed_by_veto_time (now : Fracture.GoDateTime)
    (fid : String) (fr : Fracture.FractureRequest) :
    Fracture.writeFracturePath (Fracture.ToFracturedEvent now fid fr) =
      Fracture.generateObjectPath now ∧
    (Fracture.ToFracturedEvent now fid fr).event.timestamp =
      fr.event.timestamp ∧
    (Fracture.writeFracturePath (Fracture.ToFracturedEvent now fid fr) =
        Fracture.generateObjectPath fr.event.timestamp ↔
      Fracture.generateObjectPath now =
        Fracture.generateObjectPath fr.event.timestamp) := by
  refine ⟨rfl, rfl, ?_⟩
  rw [show Fracture.writeFracturePath (Fracture.ToFracturedEvent now fid fr)
      = Fracture.generateObjectPath now from rfl]

end VEPS
